import Mathlib

/-!
Verification of the Top Five submission application (`src/app.py`).

The Python program is shallowly embedded: the validator and the request
handlers become pure Lean functions, the global in-memory list of
submissions becomes explicit state passed through each operation, and the
one-shot flash notice becomes part of each operation's return value.
Timestamps (`datetime.now().isoformat()`) are modelled as an opaque string
supplied to each submit request.
-/

namespace TopFive

/-- Constant `MAX_CATEGORY_LENGTH = 100` from the configuration block. -/
def MAX_CATEGORY_LENGTH : Nat := 100

/-- Constant `MAX_ITEM_LENGTH = 200` from the configuration block. -/
def MAX_ITEM_LENGTH : Nat := 200

/-- Constant `MAX_SUBMISSIONS = 1000` from the configuration block. -/
def MAX_SUBMISSIONS : Nat := 1000

/-- The disallowed characters `['<', '>', '"', "'"]` of `validate_input`.
The double quote and the apostrophe are written by code point. -/
def badChars : List Char := ['<', '>', Char.ofNat 34, Char.ofNat 39]

/-- Function `validate_input(text, max_length, field_name)`: returns the pair
`(is_valid, error_msg)` exactly as the Python function does.  `not text`
on a string is the emptiness test; `char in text` is character
membership, modelled over the character list of the string. -/
def validate_input (text : String) (max_length : Nat) (field_name : String) :
    Bool × Option String :=
  if text = "" then
    (false, some (field_name ++ " cannot be empty"))
  else if text.length > max_length then
    (false, some (field_name ++ " exceeds maximum length of " ++
      toString max_length ++ " characters"))
  else if badChars.any (fun c => text.data.contains c) then
    (false, some (field_name ++ " contains invalid characters"))
  else
    (true, none)

/-- One stored submission: the dict
`{"id": ..., "category": ..., "five": ..., "timestamp": ...}`. -/
structure Submission where
  id : Nat
  category : String
  five : List String
  timestamp : String
deriving Repr, DecidableEq

/-- A flash notice: `flash(msg, "error" | "success" | "info")`. -/
inductive Notice where
  | error (msg : String)
  | success (msg : String)
  | info (msg : String)
deriving Repr, DecidableEq

/-- The submission dict built at lines 88-93: id is the current store
size plus one, `five` holds the items, `timestamp` the captured time. -/
def mkSubmission (category : String) (items : List String) (now : String)
    (size : Nat) : Submission :=
  { id := size + 1, category := category, five := items, timestamp := now }

/-- The item-validation loop (lines 73-79): items are checked in order
with field names `Item 1`, `Item 2`, ...; the first failure stops the
loop and its message is returned. -/
def validateItems (max_length : Nat) : Nat → List String → Option String
  | _, [] => none
  | idx, item :: rest =>
    if (validate_input item max_length ("Item " ++ toString idx)).1 then
      validateItems max_length (idx + 1) rest
    else
      some ((validate_input item max_length ("Item " ++ toString idx)).2.getD "")

/-- The body of the POST branch of `home` after field extraction
(lines 64-97): validate the category, then the items, then the
capacity, then append.  Returns the new store and the flashed notice. -/
def processSubmit (category : String) (items : List String) (now : String)
    (submissions : List Submission) : List Submission × Notice :=
  if !(validate_input category MAX_CATEGORY_LENGTH "Category").1 then
    (submissions,
      Notice.error ((validate_input category MAX_CATEGORY_LENGTH "Category").2.getD ""))
  else
    match validateItems MAX_ITEM_LENGTH 1 items with
    | some msg => (submissions, Notice.error msg)
    | none =>
      if submissions.length ≥ MAX_SUBMISSIONS then
        (submissions, Notice.error "Submission limit reached. Please contact administrator.")
      else
        (submissions ++ [mkSubmission category items now submissions.length],
          Notice.success "Your top 5 list has been submitted successfully!")

/-- Python's `str.strip()`: remove leading and trailing whitespace,
modelled structurally over the character list of the string. -/
def strip (s : String) : String :=
  ⟨((s.data.dropWhile Char.isWhitespace).reverse.dropWhile Char.isWhitespace).reverse⟩

/-- Field extraction `request.form.get(key, "").strip()`: a missing form field defaults to
the empty string, and the value is trimmed. -/
def getField (form : String → Option String) (key : String) : String :=
  strip ((form key).getD "")

/-- Extraction of the five items (lines 59-62):
`[request.form.get(f"item{i}", "").strip() for i in range(1, 6)]`. -/
def formItems (form : String → Option String) : List String :=
  (List.range 5).map (fun i => getField form ("item" ++ toString (i + 1)))

/-- The POST branch of `home` (lines 55-103): extract and trim the form
fields, then run the validation/append pipeline. -/
def postHome (form : String → Option String) (now : String)
    (submissions : List Submission) : List Submission × Notice :=
  processSubmit (getField form "category") (formItems form) now submissions

/-- Handler `clear_submissions` (lines 114-121): reset the store to the empty
list and flash an informational notice. -/
def clear_submissions (_submissions : List Submission) :
    List Submission × Notice :=
  ([], Notice.info "All submissions have been cleared.")

/-- The data handed to `render_template` by the GET branch of `home`
(lines 106-111). -/
structure RenderData where
  template : String
  submissionsNewestFirst : List Submission
  maxCategoryLength : Nat
  maxItemLength : Nat
deriving Repr, DecidableEq

/-- The GET branch of `home`: the store is read, not written; the page
shows `reversed(submissions)` together with both length limits. -/
def getHome (submissions : List Submission) : List Submission × RenderData :=
  (submissions,
    { template := "index.html"
      submissionsNewestFirst := submissions.reverse
      maxCategoryLength := MAX_CATEGORY_LENGTH
      maxItemLength := MAX_ITEM_LENGTH })

/-- The listing used by the display flow: the submission sequence the
rendered page receives. -/
def listNewestFirst (submissions : List Submission) : List Submission :=
  (getHome submissions).2.submissionsNewestFirst

/-- A store-mutating request: a form submission (with its captured
timestamp) or the clear-all action. -/
inductive Op where
  | submit (form : String → Option String) (now : String)
  | clear

/-- The store after one request. -/
def applyOp (submissions : List Submission) : Op → List Submission
  | Op.submit form now => (postHome form now submissions).1
  | Op.clear => (clear_submissions submissions).1

/-- The store after a sequence of requests. -/
def run (submissions : List Submission) : List Op → List Submission
  | [] => submissions
  | op :: ops => run (applyOp submissions op) ops

/-- The ids assigned to submissions created during a sequence of
requests, in creation order: each request contributes the ids of the
entries it appended beyond the previous store. -/
def runIds (submissions : List Submission) : List Op → List Nat
  | [] => []
  | op :: ops =>
    ((applyOp submissions op).drop submissions.length).map (fun s => s.id)
      ++ runIds (applyOp submissions op) ops

/-- A concrete, fully valid form used to instantiate theorems. -/
def sampleForm : String → Option String := fun key =>
  if key = "category" then some "Movies"
  else if key = "item1" then some "A"
  else if key = "item2" then some "B"
  else if key = "item3" then some "C"
  else if key = "item4" then some "D"
  else if key = "item5" then some "E"
  else none

/-- A concrete form whose category contains disallowed characters. -/
def badForm : String → Option String := fun key =>
  if key = "category" then some "<script>" else some "ok"

/-- A concrete form with a valid category and first item but no `item2`
field, used for the missing-field theorems. -/
def missingItemForm : String → Option String := fun key =>
  if key = "category" then some "Movies"
  else if key = "item1" then some "A"
  else none

/-- All six extracted fields of a form pass validation. -/
@[reducible] def fieldsValid (form : String → Option String) : Prop :=
  (validate_input (getField form "category") MAX_CATEGORY_LENGTH "Category").1 = true
  ∧ ∀ t ∈ formItems form, (validate_input t MAX_ITEM_LENGTH "Item").1 = true

/-- A store filled to the configured capacity, used to instantiate the
capacity theorems. -/
def fullStore : List Submission :=
  List.replicate MAX_SUBMISSIONS (mkSubmission "c" ["a", "a", "a", "a", "a"] "t" 0)

/-! ### Helper lemmas about the validator -/

/-- The boolean verdict of `validate_input` does not depend on the field
name; only the message does. -/
theorem validate_input_fst_name (t : String) (m : Nat) (f g : String) :
    (validate_input t m f).1 = (validate_input t m g).1 := by
  unfold validate_input
  split_ifs <;> rfl

/-- Semantic characterisation of the validator's verdict. -/
theorem validate_input_fst_iff (t : String) (m : Nat) (f : String) :
    (validate_input t m f).1 = true ↔
      t ≠ "" ∧ t.length ≤ m ∧ ∀ c ∈ badChars, t.data.contains c = false := by
  unfold validate_input
  split_ifs with h1 h2 h3 <;>
    simp_all [List.any_eq_true]

/-- The item loop returns no error exactly when every item passes
validation. -/
theorem validateItems_eq_none_iff (m : Nat) (xs : List String) :
    ∀ idx, validateItems m idx xs = none ↔
      ∀ x ∈ xs, (validate_input x m "Item").1 = true := by
  induction xs with
  | nil => intro idx; simp [validateItems]
  | cons x rest ih =>
    intro idx
    unfold validateItems
    by_cases h : (validate_input x m ("Item " ++ toString idx)).1 = true
    · have hx : (validate_input x m "Item").1 = true := by
        rw [validate_input_fst_name x m "Item" ("Item " ++ toString idx)]
        exact h
      simp [h, ih (idx + 1), hx]
    · have hx : ¬ (validate_input x m "Item").1 = true := by
        rw [validate_input_fst_name x m "Item" ("Item " ++ toString idx)]
        exact h
      simp [h, hx]

/-- The item loop stops at the first failing item and reports its
message, with the field index counted from the loop's start index. -/
theorem validateItems_firstFail (m : Nat) (bad : String)
    (hbad : (validate_input bad m "Item").1 = false) :
    ∀ (pre : List String) (rest : List String) (idx : Nat),
      (∀ x ∈ pre, (validate_input x m "Item").1 = true) →
      validateItems m idx (pre ++ bad :: rest) =
        some ((validate_input bad m
          ("Item " ++ toString (idx + pre.length))).2.getD "") := by
  intro pre
  induction pre with
  | nil =>
    intro rest idx _
    have hb : ¬ (validate_input bad m ("Item " ++ toString idx)).1 = true := by
      rw [validate_input_fst_name bad m ("Item " ++ toString idx) "Item"]
      simp [hbad]
    simp [validateItems, hb]
  | cons x pre ih =>
    intro rest idx hvalid
    have hx : (validate_input x m ("Item " ++ toString idx)).1 = true := by
      rw [validate_input_fst_name x m ("Item " ++ toString idx) "Item"]
      exact hvalid x (by simp)
    have hpre : ∀ y ∈ pre, (validate_input y m "Item").1 = true := by
      intro y hy
      exact hvalid y (by simp [hy])
    have harith : idx + 1 + pre.length = idx + (x :: pre).length := by
      simp only [List.length_cons]
      omega
    show validateItems m idx (x :: (pre ++ bad :: rest)) = _
    unfold validateItems
    rw [if_pos hx, ih rest (idx + 1) hpre, harith]

/-! ### Helper lemmas about the submit pipeline -/

/-- If the category fails validation, the request is rejected with the
category's message and the store is unchanged. -/
theorem processSubmit_cat_fail (cat : String) (items : List String)
    (now : String) (subs : List Submission)
    (h : (validate_input cat MAX_CATEGORY_LENGTH "Category").1 = false) :
    processSubmit cat items now subs =
      (subs, Notice.error
        ((validate_input cat MAX_CATEGORY_LENGTH "Category").2.getD "")) := by
  simp [processSubmit, h]

/-- If the category passes but the item loop fails, the request is
rejected with the loop's message and the store is unchanged. -/
theorem processSubmit_item_fail (cat : String) (items : List String)
    (now : String) (subs : List Submission) (msg : String)
    (h1 : (validate_input cat MAX_CATEGORY_LENGTH "Category").1 = true)
    (h2 : validateItems MAX_ITEM_LENGTH 1 items = some msg) :
    processSubmit cat items now subs = (subs, Notice.error msg) := by
  simp [processSubmit, h1, h2]

/-- If all fields pass but the store is at capacity, the request is
rejected with the fixed limit notice and the store is unchanged. -/
theorem processSubmit_limit (cat : String) (items : List String)
    (now : String) (subs : List Submission)
    (h1 : (validate_input cat MAX_CATEGORY_LENGTH "Category").1 = true)
    (h2 : validateItems MAX_ITEM_LENGTH 1 items = none)
    (h3 : MAX_SUBMISSIONS ≤ subs.length) :
    processSubmit cat items now subs =
      (subs, Notice.error "Submission limit reached. Please contact administrator.") := by
  simp [processSubmit, h1, h2, h3]

/-- If all fields pass and the store is below capacity, the submission
is appended at the end with id `size + 1`. -/
theorem processSubmit_accept (cat : String) (items : List String)
    (now : String) (subs : List Submission)
    (h1 : (validate_input cat MAX_CATEGORY_LENGTH "Category").1 = true)
    (h2 : validateItems MAX_ITEM_LENGTH 1 items = none)
    (h3 : subs.length < MAX_SUBMISSIONS) :
    processSubmit cat items now subs =
      (subs ++ [mkSubmission cat items now subs.length],
        Notice.success "Your top 5 list has been submitted successfully!") := by
  have h4 : ¬ subs.length ≥ MAX_SUBMISSIONS := by omega
  simp [processSubmit, h1, h2, h4]

/-- Every submit request either leaves the store unchanged or, the store
being below capacity, appends exactly one submission with id
`size + 1`. -/
theorem processSubmit_store_cases (cat : String) (items : List String)
    (now : String) (subs : List Submission) :
    (processSubmit cat items now subs).1 = subs ∨
      (subs.length < MAX_SUBMISSIONS ∧
        (processSubmit cat items now subs).1 =
          subs ++ [mkSubmission cat items now subs.length]) := by
  by_cases h1 : (validate_input cat MAX_CATEGORY_LENGTH "Category").1 = true
  · cases h2 : validateItems MAX_ITEM_LENGTH 1 items with
    | some msg =>
      left
      rw [processSubmit_item_fail cat items now subs msg h1 h2]
    | none =>
      by_cases h3 : MAX_SUBMISSIONS ≤ subs.length
      · left
        rw [processSubmit_limit cat items now subs h1 h2 h3]
      · right
        have h3' : subs.length < MAX_SUBMISSIONS := by omega
        exact ⟨h3', by rw [processSubmit_accept cat items now subs h1 h2 h3']⟩
  · left
    have h1f : (validate_input cat MAX_CATEGORY_LENGTH "Category").1 = false := by
      simpa using h1
    rw [processSubmit_cat_fail cat items now subs h1f]

/-! ### Helper lemmas about request sequences -/

/-- Unfolding lemma: the empty request sequence. -/
theorem run_nil (subs : List Submission) : run subs [] = subs := rfl

/-- Unfolding lemma: one more request. -/
theorem run_cons (subs : List Submission) (op : Op) (ops : List Op) :
    run subs (op :: ops) = run (applyOp subs op) ops := rfl

/-- Unfolding lemma: a submit request acts through the pipeline. -/
theorem applyOp_submit (subs : List Submission) (f : String → Option String)
    (n : String) :
    applyOp subs (Op.submit f n) =
      (processSubmit (getField f "category") (formItems f) n subs).1 := rfl

/-- Unfolding lemma: the clear request empties the store. -/
theorem applyOp_clear (subs : List Submission) :
    applyOp subs Op.clear = [] := rfl

/-- Unfolding lemma: no request, no assigned ids. -/
theorem runIds_nil (subs : List Submission) : runIds subs [] = [] := rfl

/-- Unfolding lemma: the ids assigned by one more request. -/
theorem runIds_cons (subs : List Submission) (op : Op) (ops : List Op) :
    runIds subs (op :: ops) =
      ((applyOp subs op).drop subs.length).map (fun s => s.id)
        ++ runIds (applyOp subs op) ops := rfl

/-- The five extracted items, written out field by field. -/
theorem formItems_eq (form : String → Option String) :
    formItems form = [getField form "item1", getField form "item2",
      getField form "item3", getField form "item4", getField form "item5"] := rfl

/-- One request preserves the capacity bound on the store. -/
theorem applyOp_length_le (subs : List Submission) (op : Op)
    (h : subs.length ≤ MAX_SUBMISSIONS) :
    (applyOp subs op).length ≤ MAX_SUBMISSIONS := by
  cases op with
  | clear =>
    rw [applyOp_clear]
    simp
  | submit f n =>
    rw [applyOp_submit]
    rcases processSubmit_store_cases (getField f "category") (formItems f) n subs
      with hc | ⟨hlt, hc⟩
    · rw [hc]; exact h
    · rw [hc]; simp; omega

/-- Any request sequence started within capacity stays within
capacity. -/
theorem run_length_le (ops : List Op) :
    ∀ subs : List Submission, subs.length ≤ MAX_SUBMISSIONS →
      (run subs ops).length ≤ MAX_SUBMISSIONS := by
  induction ops with
  | nil =>
    intro subs h
    rw [run_nil]
    exact h
  | cons op ops ih =>
    intro subs h
    rw [run_cons]
    exact ih (applyOp subs op) (applyOp_length_le subs op h)

/-- In a clear-free request sequence the assigned ids are strictly
increasing, and each one exceeds the starting store size. -/
theorem runIds_noClear (ops : List Op) :
    ∀ subs : List Submission, (∀ op ∈ ops, op ≠ Op.clear) →
      List.Pairwise (fun a b => a < b) (runIds subs ops) ∧
        ∀ i ∈ runIds subs ops, subs.length < i := by
  induction ops with
  | nil =>
    intro subs _
    simp [runIds_nil]
  | cons op ops ih =>
    intro subs h
    have hops : ∀ o ∈ ops, o ≠ Op.clear := by
      intro o ho
      exact h o (List.mem_cons_of_mem _ ho)
    cases op with
    | clear => exact absurd rfl (h Op.clear (List.mem_cons_self _ _))
    | submit f n =>
      rw [runIds_cons, applyOp_submit]
      rcases processSubmit_store_cases (getField f "category") (formItems f) n subs
        with hc | ⟨hlt, hc⟩
      · rw [hc, List.drop_length]
        simpa using ih subs hops
      · rw [hc, List.drop_left]
        rcases ih (subs ++ [mkSubmission (getField f "category") (formItems f) n subs.length])
          hops with ⟨hp, hb⟩
        have hb2 : ∀ i ∈ runIds (subs ++ [mkSubmission (getField f "category")
            (formItems f) n subs.length]) ops, subs.length + 1 < i := by
          intro i hi
          have := hb i hi
          simpa using this
        simp only [List.map_cons, List.map_nil, List.singleton_append]
        constructor
        · apply List.Pairwise.cons
          · intro b hbmem
            have := hb2 b hbmem
            simp [mkSubmission]
            omega
          · exact hp
        · intro i hi
          rcases List.mem_cons.mp hi with h1 | h1
          · subst h1
            simp [mkSubmission]
          · have := hb2 i h1
            omega

/-- The listing is the reverse of the store. -/
theorem listNewestFirst_eq (subs : List Submission) :
    listNewestFirst subs = subs.reverse := rfl

/-- Unfolding lemma: a POST request extracts the fields and runs the
pipeline. -/
theorem postHome_eq (form : String → Option String) (now : String)
    (subs : List Submission) :
    postHome form now subs =
      processSubmit (getField form "category") (formItems form) now subs := rfl

/-- A field that is empty, too long, or contains a disallowed character
fails validation. -/
theorem validate_input_fst_false_of_bad (t : String) (m : Nat) (f : String)
    (h : t = "" ∨ m < t.length ∨ ∃ c ∈ badChars, t.data.contains c = true) :
    (validate_input t m f).1 = false := by
  rw [Bool.eq_false_iff]
  intro htrue
  rcases (validate_input_fst_iff t m f).mp htrue with ⟨h1, h2, h3⟩
  rcases h with h0 | h0 | ⟨c, hc, hcc⟩
  · exact h1 h0
  · omega
  · have h4 := h3 c hc
    simp at h4 hcc
    exact h4 hcc

/-- A submit request whose first missing item field is `item(pre.length + 1)`,
all earlier items passing validation, is rejected with that item's
empty-field message. -/
theorem postHome_missing_item (form : String → Option String) (now : String)
    (subs : List Submission) (pre rest : List String)
    (hcat : (validate_input (getField form "category") MAX_CATEGORY_LENGTH "Category").1 = true)
    (hdecomp : formItems form =
      pre ++ getField form ("item" ++ toString (pre.length + 1)) :: rest)
    (hpre : ∀ x ∈ pre, (validate_input x MAX_ITEM_LENGTH "Item").1 = true)
    (hnone : form ("item" ++ toString (pre.length + 1)) = none) :
    postHome form now subs =
      (subs, Notice.error ("Item " ++ toString (pre.length + 1) ++ " cannot be empty")) := by
  have hg : getField form ("item" ++ toString (pre.length + 1)) = "" := by
    show strip ((form ("item" ++ toString (pre.length + 1))).getD "") = ""
    rw [hnone]
    rfl
  have hb : (validate_input (getField form ("item" ++ toString (pre.length + 1)))
      MAX_ITEM_LENGTH "Item").1 = false := by
    rw [hg]
    rfl
  have e := validateItems_firstFail MAX_ITEM_LENGTH _ hb pre rest 1 hpre
  show processSubmit (getField form "category") (formItems form) now subs = _
  rw [hdecomp, processSubmit_item_fail _ _ now subs _ hcat e]
  have hmsg : ((validate_input (getField form ("item" ++ toString (pre.length + 1)))
      MAX_ITEM_LENGTH ("Item " ++ toString (1 + pre.length))).2.getD "")
      = "Item " ++ toString (pre.length + 1) ++ " cannot be empty" := by
    rw [hg, Nat.add_comm 1 pre.length]
    simp [validate_input]
  rw [hmsg]

/-! ### The claims -/

/-- Claim C2: `validate_input` returns `Ok` exactly when the text is
non-empty, within the length bound, and free of the four disallowed
characters; otherwise it reports the first failing check in the fixed
order empty, length, characters, naming the field (and, for the length
failure, the maximum length) in the message. -/
theorem claim_C2 (t : String) (m : Nat) (f : String) :
    ((validate_input t m f).1 = true ↔
      t ≠ "" ∧ t.length ≤ m ∧ ∀ c ∈ badChars, t.data.contains c = false)
    ∧ (t = "" → validate_input t m f = (false, some (f ++ " cannot be empty")))
    ∧ (t ≠ "" → m < t.length →
        validate_input t m f =
          (false, some (f ++ " exceeds maximum length of " ++ toString m ++ " characters")))
    ∧ (t ≠ "" → t.length ≤ m → (∃ c ∈ badChars, t.data.contains c = true) →
        validate_input t m f = (false, some (f ++ " contains invalid characters"))) := by
  refine ⟨validate_input_fst_iff t m f, ?_, ?_, ?_⟩
  · intro h
    simp [validate_input, h]
  · intro h1 h2
    simp [validate_input, h1, h2]
  · intro h1 h2 h3
    have hlen : ¬ t.length > m := by omega
    have hany : badChars.any (fun c => t.data.contains c) = true := by
      rcases h3 with ⟨c, hc, hcc⟩
      exact List.any_eq_true.mpr ⟨c, hc, hcc⟩
    simp [validate_input, h1, hlen, hany]
    rcases h3 with ⟨c, hc, hcc⟩
    exact ⟨c, hc, by simpa using hcc⟩

/-- Witness for C2: the empty string fails the empty check first. -/
theorem claim_C2_witness :
    validate_input "" 100 "Category" = (false, some ("Category" ++ " cannot be empty")) :=
  (claim_C2 "" 100 "Category").2.1 rfl

/-- Claim C1: a submit request in which any of the six trimmed fields is
empty, over its length limit, or contains a disallowed character is
rejected with an error notice and leaves the store unchanged. -/
theorem claim_C1 (form : String → Option String) (now : String)
    (subs : List Submission)
    (h : (getField form "category" = ""
          ∨ MAX_CATEGORY_LENGTH < (getField form "category").length
          ∨ ∃ c ∈ badChars, (getField form "category").data.contains c = true)
        ∨ ∃ t ∈ formItems form, t = "" ∨ MAX_ITEM_LENGTH < t.length
          ∨ ∃ c ∈ badChars, t.data.contains c = true) :
    (postHome form now subs).1 = subs ∧
      ∃ msg, (postHome form now subs).2 = Notice.error msg := by
  rcases h with hcatbad | ⟨t, ht, hbad⟩
  · have hf := validate_input_fst_false_of_bad _ MAX_CATEGORY_LENGTH "Category" hcatbad
    rw [postHome_eq, processSubmit_cat_fail _ _ now subs hf]
    exact ⟨rfl, _, rfl⟩
  · have hf := validate_input_fst_false_of_bad t MAX_ITEM_LENGTH "Item" hbad
    by_cases hcat :
        (validate_input (getField form "category") MAX_CATEGORY_LENGTH "Category").1 = true
    · have hne : validateItems MAX_ITEM_LENGTH 1 (formItems form) ≠ none := by
        rw [Ne, validateItems_eq_none_iff]
        intro hall
        have := hall t ht
        simp [hf] at this
      cases hv : validateItems MAX_ITEM_LENGTH 1 (formItems form) with
      | none => exact absurd hv hne
      | some msg =>
        rw [postHome_eq, processSubmit_item_fail _ _ now subs msg hcat hv]
        exact ⟨rfl, msg, rfl⟩
    · have hcf : (validate_input (getField form "category")
          MAX_CATEGORY_LENGTH "Category").1 = false := by
        simpa using hcat
      rw [postHome_eq, processSubmit_cat_fail _ _ now subs hcf]
      exact ⟨rfl, _, rfl⟩

/-- Witness for C1: a category containing `<` is rejected on the empty
store and the store stays empty. -/
theorem claim_C1_witness :
    (postHome badForm "t" []).1 = [] ∧
      ∃ msg, (postHome badForm "t" []).2 = Notice.error msg :=
  claim_C1 badForm "t" [] (Or.inl (Or.inr (Or.inr ⟨'<', by decide, by decide⟩)))

/-- Claim C7: the clear action resets the store to the empty list in one
step, after which the listing is empty, whatever the prior contents. -/
theorem claim_C7 (subs : List Submission) :
    clear_submissions subs = ([], Notice.info "All submissions have been cleared.")
    ∧ listNewestFirst (applyOp subs Op.clear) = []
    ∧ run subs [Op.clear] = [] :=
  ⟨rfl, rfl, rfl⟩

/-- Claim C9: the display read returns the store unchanged, and reading
twice with no intervening write renders identical data. -/
theorem claim_C9 (subs : List Submission) :
    (getHome subs).1 = subs
    ∧ (getHome ((getHome subs).1)).2 = (getHome subs).2 :=
  ⟨rfl, rfl⟩

/-- Counterexample to C3 as stated: submitting, clearing, then
submitting again assigns the ids `[1, 1]` — neither strictly increasing
nor free of reuse across the clear. -/
theorem claim_C3_counterexample :
    runIds [] [Op.submit sampleForm "t1", Op.clear, Op.submit sampleForm "t2"] = [1, 1]
    ∧ ¬ List.Pairwise (fun a b : Nat => a < b)
        (runIds [] [Op.submit sampleForm "t1", Op.clear, Op.submit sampleForm "t2"])
    ∧ ¬ List.Pairwise (fun a b : Nat => a ≠ b)
        (runIds [] [Op.submit sampleForm "t1", Op.clear, Op.submit sampleForm "t2"]) := by
  have h : runIds [] [Op.submit sampleForm "t1", Op.clear, Op.submit sampleForm "t2"]
      = [1, 1] := by decide
  refine ⟨h, ?_, ?_⟩ <;> rw [h] <;> decide

/-- Claim C3 (amended): in any clear-free sequence of requests the
assigned ids are strictly increasing and never reused; a clear resets
the counter, so ids are reused across clears. -/
theorem claim_C3 (subs : List Submission) (ops : List Op)
    (h : ∀ op ∈ ops, op ≠ Op.clear) :
    List.Pairwise (fun a b => a < b) (runIds subs ops)
    ∧ List.Pairwise (fun a b => a ≠ b) (runIds subs ops) := by
  have hp := (runIds_noClear ops subs h).1
  exact ⟨hp, hp.imp (fun hab => Nat.ne_of_lt hab)⟩

/-- Witness for C3: two clear-free submissions assign increasing,
distinct ids. -/
theorem claim_C3_witness :
    List.Pairwise (fun a b : Nat => a < b)
      (runIds [] [Op.submit sampleForm "a", Op.submit sampleForm "b"])
    ∧ List.Pairwise (fun a b : Nat => a ≠ b)
      (runIds [] [Op.submit sampleForm "a", Op.submit sampleForm "b"]) :=
  claim_C3 [] [Op.submit sampleForm "a", Op.submit sampleForm "b"]
    (by intro op hop hc; subst hc; simp at hop)

/-- Claim C4: an accepted submission gets id `size + 1` and is appended
at the end; in particular, the first accepted submission after a clear
gets id `1`. -/
theorem claim_C4 (f : String → Option String) (now : String)
    (subs : List Submission) (h : fieldsValid f)
    (hlen : subs.length < MAX_SUBMISSIONS) :
    postHome f now subs =
      (subs ++ [mkSubmission (getField f "category") (formItems f) now subs.length],
        Notice.success "Your top 5 list has been submitted successfully!")
    ∧ (mkSubmission (getField f "category") (formItems f) now subs.length).id
        = subs.length + 1
    ∧ postHome f now (applyOp subs Op.clear) =
        ([mkSubmission (getField f "category") (formItems f) now 0],
          Notice.success "Your top 5 list has been submitted successfully!")
    ∧ (mkSubmission (getField f "category") (formItems f) now 0).id = 1 := by
  have hvi := (validateItems_eq_none_iff MAX_ITEM_LENGTH (formItems f) 1).mpr h.2
  refine ⟨?_, rfl, ?_, rfl⟩
  · rw [postHome_eq]
    exact processSubmit_accept _ _ now subs h.1 hvi hlen
  · rw [applyOp_clear, postHome_eq]
    have := processSubmit_accept (getField f "category") (formItems f) now [] h.1 hvi
      (by decide)
    simpa using this

/-- Witness for C4: the sample form accepted on the empty store yields
the single submission with id 1. -/
theorem claim_C4_witness :
    postHome sampleForm "t" [] =
      ([mkSubmission (getField sampleForm "category") (formItems sampleForm) "t" 0],
        Notice.success "Your top 5 list has been submitted successfully!") := by
  have h := (claim_C4 sampleForm "t" [] ⟨by decide, by decide⟩ (by decide)).1
  simpa using h

/-- Claim C5: every store reachable from the empty store holds at most
1000 submissions, and a valid submit request against a store at or above
capacity is rejected with the fixed limit notice, leaving the store
unchanged. -/
theorem claim_C5 :
    (∀ ops : List Op, (run [] ops).length ≤ MAX_SUBMISSIONS)
    ∧ ∀ (f : String → Option String) (now : String) (subs : List Submission),
        fieldsValid f → MAX_SUBMISSIONS ≤ subs.length →
        postHome f now subs =
          (subs, Notice.error "Submission limit reached. Please contact administrator.") := by
  constructor
  · intro ops
    exact run_length_le ops [] (by simp)
  · intro f now subs h hlen
    have hvi := (validateItems_eq_none_iff MAX_ITEM_LENGTH (formItems f) 1).mpr h.2
    rw [postHome_eq]
    exact processSubmit_limit _ _ now subs h.1 hvi hlen

/-- Witness for C5: a fully valid submission against a store of exactly
1000 entries is rejected and the store is unchanged. -/
theorem claim_C5_witness :
    postHome sampleForm "t" fullStore =
      (fullStore, Notice.error "Submission limit reached. Please contact administrator.") :=
  claim_C5.2 sampleForm "t" fullStore ⟨by decide, by decide⟩
    (by simp [fullStore])

/-- Claim C6: the display listing is the store in reverse insertion
order; two accepted submissions in sequence are listed second first,
then first, then the earlier contents reversed. -/
theorem claim_C6 (subs : List Submission) (f1 f2 : String → Option String)
    (n1 n2 : String) :
    listNewestFirst subs = subs.reverse
    ∧ (fieldsValid f1 → fieldsValid f2 → subs.length + 1 < MAX_SUBMISSIONS →
       run subs [Op.submit f1 n1, Op.submit f2 n2] =
         subs ++ [mkSubmission (getField f1 "category") (formItems f1) n1 subs.length,
           mkSubmission (getField f2 "category") (formItems f2) n2 (subs.length + 1)]
       ∧ listNewestFirst (run subs [Op.submit f1 n1, Op.submit f2 n2]) =
           mkSubmission (getField f2 "category") (formItems f2) n2 (subs.length + 1)
             :: mkSubmission (getField f1 "category") (formItems f1) n1 subs.length
             :: listNewestFirst subs) := by
  refine ⟨rfl, ?_⟩
  intro h1 h2 hlen
  have hvi1 := (validateItems_eq_none_iff MAX_ITEM_LENGTH (formItems f1) 1).mpr h1.2
  have hvi2 := (validateItems_eq_none_iff MAX_ITEM_LENGTH (formItems f2) 1).mpr h2.2
  have e1 := processSubmit_accept (getField f1 "category") (formItems f1) n1 subs h1.1
    hvi1 (by omega)
  have hrun1 : applyOp subs (Op.submit f1 n1) =
      subs ++ [mkSubmission (getField f1 "category") (formItems f1) n1 subs.length] := by
    rw [applyOp_submit, e1]
  have hlen2 : (subs ++ [mkSubmission (getField f1 "category") (formItems f1)
      n1 subs.length]).length < MAX_SUBMISSIONS := by
    simp
    omega
  have e2 := processSubmit_accept (getField f2 "category") (formItems f2) n2
    (subs ++ [mkSubmission (getField f1 "category") (formItems f1) n1 subs.length])
    h2.1 hvi2 hlen2
  have hrun : run subs [Op.submit f1 n1, Op.submit f2 n2] =
      subs ++ [mkSubmission (getField f1 "category") (formItems f1) n1 subs.length,
        mkSubmission (getField f2 "category") (formItems f2) n2 (subs.length + 1)] := by
    rw [run_cons, run_cons, run_nil, hrun1, applyOp_submit, e2]
    simp [mkSubmission]
  refine ⟨hrun, ?_⟩
  rw [hrun, listNewestFirst_eq, listNewestFirst_eq]
  simp

/-- Witness for C6: two sample submissions on the empty store are listed
newest first. -/
theorem claim_C6_witness :
    run [] [Op.submit sampleForm "t1", Op.submit sampleForm "t2"] =
      [mkSubmission (getField sampleForm "category") (formItems sampleForm) "t1" 0,
       mkSubmission (getField sampleForm "category") (formItems sampleForm) "t2" 1]
    ∧ listNewestFirst (run [] [Op.submit sampleForm "t1", Op.submit sampleForm "t2"]) =
        [mkSubmission (getField sampleForm "category") (formItems sampleForm) "t2" 1,
         mkSubmission (getField sampleForm "category") (formItems sampleForm) "t1" 0] := by
  have h := (claim_C6 [] sampleForm sampleForm "t1" "t2").2
    ⟨by decide, by decide⟩ ⟨by decide, by decide⟩ (by decide)
  exact ⟨by simpa using h.1, by simpa [listNewestFirst_eq] using h.2⟩

/-- Claim C8: the category is validated before the items; an invalid
category is reported regardless of the items; the items are validated in
order, the first failing item's message is reported with its 1-based
index, and the items after the first failure are never examined. -/
theorem claim_C8 (subs : List Submission) (now cat cat2 : String)
    (pre post1 post2 items : List String) (bad : String) :
    ((validate_input cat2 MAX_CATEGORY_LENGTH "Category").1 = false →
      processSubmit cat2 items now subs =
        (subs, Notice.error
          ((validate_input cat2 MAX_CATEGORY_LENGTH "Category").2.getD "")))
    ∧ ((validate_input cat MAX_CATEGORY_LENGTH "Category").1 = true →
       (∀ x ∈ pre, (validate_input x MAX_ITEM_LENGTH "Item").1 = true) →
       (validate_input bad MAX_ITEM_LENGTH "Item").1 = false →
       processSubmit cat (pre ++ bad :: post1) now subs =
         (subs, Notice.error ((validate_input bad MAX_ITEM_LENGTH
           ("Item " ++ toString (1 + pre.length))).2.getD ""))
       ∧ processSubmit cat (pre ++ bad :: post1) now subs =
           processSubmit cat (pre ++ bad :: post2) now subs) := by
  constructor
  · intro h
    exact processSubmit_cat_fail cat2 items now subs h
  · intro h1 h2 h3
    have e1 := validateItems_firstFail MAX_ITEM_LENGTH bad h3 pre post1 1 h2
    have e2 := validateItems_firstFail MAX_ITEM_LENGTH bad h3 pre post2 1 h2
    refine ⟨processSubmit_item_fail _ _ now subs _ h1 e1, ?_⟩
    rw [processSubmit_item_fail _ _ now subs _ h1 e1,
      processSubmit_item_fail _ _ now subs _ h1 e2]

/-- Witness for C8: with a valid category and first item, an empty
second item is reported as `Item 2` and the later items are
irrelevant. -/
theorem claim_C8_witness :
    processSubmit "Movies" (["A"] ++ "" :: ["C", "D", "E"]) "t" [] =
      ([], Notice.error ((validate_input "" MAX_ITEM_LENGTH
        ("Item " ++ toString (1 + (["A"] : List String).length))).2.getD ""))
    ∧ processSubmit "Movies" (["A"] ++ "" :: ["C", "D", "E"]) "t" [] =
        processSubmit "Movies" (["A"] ++ "" :: ["X", "Y", "Z"]) "t" [] :=
  (claim_C8 [] "t" "Movies" "x" ["A"] ["C", "D", "E"] ["X", "Y", "Z"] [] "").2
    (by decide) (by decide) (by decide)

/-- Claim C10: a form field absent from the request body is treated as
the empty string; a request with no form data at all is rejected with
the Category empty-field message and the store is unchanged; and when
the earlier fields are valid, a missing item field `j + 1` is rejected
with that item's empty-field message. -/
theorem claim_C10 (form : String → Option String) (now : String)
    (subs : List Submission) (j : Nat) :
    (∀ key, form key = none → getField form key = "")
    ∧ postHome (fun _ => none) now subs = (subs, Notice.error "Category cannot be empty")
    ∧ (form "category" = none →
        postHome form now subs = (subs, Notice.error "Category cannot be empty"))
    ∧ (j < 5 →
       (validate_input (getField form "category") MAX_CATEGORY_LENGTH "Category").1 = true →
       (∀ i, i < j → (validate_input (getField form ("item" ++ toString (i + 1)))
          MAX_ITEM_LENGTH "Item").1 = true) →
       form ("item" ++ toString (j + 1)) = none →
       postHome form now subs =
         (subs, Notice.error ("Item " ++ toString (j + 1) ++ " cannot be empty"))) := by
  refine ⟨?_, ?_, ?_, ?_⟩
  · intro key hk
    show strip ((form key).getD "") = ""
    rw [hk]
    rfl
  · have hcf : (validate_input (getField (fun _ => none : String → Option String)
        "category") MAX_CATEGORY_LENGTH "Category").1 = false := by decide
    rw [postHome_eq, processSubmit_cat_fail _ _ now subs hcf]
    have hmsg : ((validate_input (getField (fun _ => none : String → Option String)
        "category") MAX_CATEGORY_LENGTH "Category").2.getD "")
        = "Category cannot be empty" := by decide
    rw [hmsg]
  · intro hk
    have hg : getField form "category" = "" := by
      show strip ((form "category").getD "") = ""
      rw [hk]
      rfl
    have hcf : (validate_input (getField form "category")
        MAX_CATEGORY_LENGTH "Category").1 = false := by
      rw [hg]
      rfl
    rw [postHome_eq, processSubmit_cat_fail _ _ now subs hcf]
    have hmsg : ((validate_input (getField form "category")
        MAX_CATEGORY_LENGTH "Category").2.getD "") = "Category cannot be empty" := by
      rw [hg]
      decide
    rw [hmsg]
  · intro hj hcat hvalid hnone
    interval_cases j
    · exact postHome_missing_item form now subs []
        [getField form ("item" ++ toString 2), getField form ("item" ++ toString 3),
         getField form ("item" ++ toString 4), getField form ("item" ++ toString 5)]
        hcat rfl (by intro x hx; simp at hx) hnone
    · exact postHome_missing_item form now subs
        [getField form ("item" ++ toString 1)]
        [getField form ("item" ++ toString 3), getField form ("item" ++ toString 4),
         getField form ("item" ++ toString 5)]
        hcat rfl
        (by
          intro x hx
          simp at hx
          subst hx
          exact hvalid 0 (by omega))
        hnone
    · exact postHome_missing_item form now subs
        [getField form ("item" ++ toString 1), getField form ("item" ++ toString 2)]
        [getField form ("item" ++ toString 4), getField form ("item" ++ toString 5)]
        hcat rfl
        (by
          intro x hx
          simp at hx
          rcases hx with hx | hx <;> subst hx
          · exact hvalid 0 (by omega)
          · exact hvalid 1 (by omega))
        hnone
    · exact postHome_missing_item form now subs
        [getField form ("item" ++ toString 1), getField form ("item" ++ toString 2),
         getField form ("item" ++ toString 3)]
        [getField form ("item" ++ toString 5)]
        hcat rfl
        (by
          intro x hx
          simp at hx
          rcases hx with hx | hx | hx <;> subst hx
          · exact hvalid 0 (by omega)
          · exact hvalid 1 (by omega)
          · exact hvalid 2 (by omega))
        hnone
    · exact postHome_missing_item form now subs
        [getField form ("item" ++ toString 1), getField form ("item" ++ toString 2),
         getField form ("item" ++ toString 3), getField form ("item" ++ toString 4)]
        []
        hcat rfl
        (by
          intro x hx
          simp at hx
          rcases hx with hx | hx | hx | hx <;> subst hx
          · exact hvalid 0 (by omega)
          · exact hvalid 1 (by omega)
          · exact hvalid 2 (by omega)
          · exact hvalid 3 (by omega))
        hnone

/-- Witness for C10: a form whose `item2` field is absent, category and
`item1` valid, is rejected with the `Item 2` empty-field message on the
empty store. -/
theorem claim_C10_witness :
    postHome missingItemForm "t" [] =
      ([], Notice.error ("Item " ++ toString 2 ++ " cannot be empty")) := by
  have h := (claim_C10 missingItemForm "t" [] 1).2.2.2 (by omega) (by decide)
    (by
      intro i hi
      have hi0 : i = 0 := by omega
      subst hi0
      decide)
    (by decide)
  exact h

end TopFive
